import Mathlib

/-!
# Wire-format layer of `smbprotocol` — verification of spec claims

This file shallowly embeds the pack/unpack behaviour of the message catalog
in `smbprotocol/messages.py`.  Bytes are modelled as `List Nat` (each entry a
value `< 256` where the encoders guarantee it via `% 256`).  Every
size/offset/count lambda of the source is transcribed directly; the generic
field machinery (`smbprotocol/structure.py`, which is not part of the given
sources) is modelled from the spec: a field's `unpack` consumes exactly its
resolved size and a shortfall is a structural decode failure (`none` /
`.error`), and a field's `pack` uses the caller-set value when one was set
and otherwise evaluates the default function.

Nested context bodies (preauth-integrity / encryption capabilities) are kept
at the byte level: the claims under study concern the byte envelope — entry
framing, padding, alignment and offsets — not the interior of the bodies.
-/

namespace Smb

/-- Little-endian 2-byte encoding, as `struct.pack("<H", n)`. -/
def le16 (n : Nat) : List Nat := [n % 256, n / 256 % 256]

/-- Little-endian 4-byte encoding, as `struct.pack("<I", n)`. -/
def le32 (n : Nat) : List Nat :=
  [n % 256, n / 256 % 256, n / 65536 % 256, n / 16777216 % 256]

/-- Big-endian 4-byte encoding, as `struct.pack(">L", n)` (used only by the
transport length prefix). -/
def be32 (n : Nat) : List Nat :=
  [n / 16777216 % 256, n / 65536 % 256, n / 256 % 256, n % 256]

/-- Little-endian 2-byte read at index `i`, as `struct.unpack("<H", b[i:i+2])`.
Callers guard the length before reading, so the `0` default is never hit on a
successful path. -/
def byte2 (b : List Nat) (i : Nat) : Nat := b.getD i 0 + 256 * b.getD (i + 1) 0

/-- Little-endian 4-byte read at index `i`. -/
def byte4 (b : List Nat) (i : Nat) : Nat :=
  b.getD i 0 + 256 * b.getD (i + 1) 0 + 65536 * b.getD (i + 2) 0 +
    16777216 * b.getD (i + 3) 0

/-- Big-endian 4-byte value of the first four bytes. -/
def beVal4 (b : List Nat) : Nat :=
  16777216 * b.getD 0 0 + 65536 * b.getD 1 0 + 256 * b.getD 2 0 + b.getD 3 0

theorem le16_length (n : Nat) : (le16 n).length = 2 := rfl

theorem le32_length (n : Nat) : (le32 n).length = 4 := rfl

theorem byte2_le16_append (n : Nat) (rest : List Nat) (h : n < 65536) :
    byte2 (le16 n ++ rest) 0 = n := by
  simp [byte2, le16]
  omega

theorem beVal4_be32 (n : Nat) (h : n < 4294967296) : beVal4 (be32 n) = n := by
  simp [beVal4, be32]
  omega

/-! ## Negotiate contexts (`SMB2NegotiateContextRequest` and the chain parsers
of `SMB3NegotiateRequest` / `SMB2NegotiateResponse`) -/

/-- A decoded `SMB2NegotiateContextRequest`.  The `data` body is kept as its
raw bytes; `data_length` is the measured `data.length` (the source's default
lambda `len(s['data'].get_value())`), and the padding bytes are regenerated
from it, so neither is stored. -/
structure NegCtx where
  contextType : Nat
  reserved : Nat
  data : List Nat
  deriving DecidableEq, Repr

/-- Transcribes `SMB2NegotiateContextRequest._padding_size`:
`8 - data_size if data_size <= 8 else 8 - (data_size % 8)`. -/
def negCtxPaddingSize (dataSize : Nat) : Nat :=
  if dataSize ≤ 8 then 8 - dataSize else 8 - dataSize % 8

/-- Pack of `SMB2NegotiateContextRequest` in declared field order:
`context_type`(2) · `data_length`(2) · `reserved`(4) · `data` · `padding`. -/
def negCtxPack (c : NegCtx) : List Nat :=
  le16 c.contextType ++ le16 c.data.length ++ le32 c.reserved ++ c.data ++
    List.replicate (negCtxPaddingSize c.data.length) 0

/-- Unpack of `SMB2NegotiateContextRequest`: consumes `context_type`(2),
`data_length`(2), `reserved`(4), `data` (`data_length` bytes, the
`StructureField` body kept as raw bytes) and `padding`
(`_padding_size(data_length)` bytes) in order; per the spec each field
consumes exactly its resolved size, and exhausting the buffer is a
structural decode failure. -/
def negCtxUnpack (b : List Nat) : Option NegCtx :=
  if b.length < 8 then none
  else
    let dl := byte2 b 2
    if b.length < 8 + dl + negCtxPaddingSize dl then none
    else some ⟨byte2 b 0, byte4 b 4, (b.drop 8).take dl⟩

/-- Transcribes `SMB3NegotiateRequest._parse_negotiate_context_entry`: reads
`data_length` from `data[2:4]`, unpacks an entry from `data[:data_length+8]`
and advances by `8 + data_length` (no padding skip). -/
def parseNegEntryReq (data : List Nat) : Option (NegCtx × List Nat) :=
  if data.length < 4 then none
  else
    let dl := byte2 data 2
    (negCtxUnpack (data.take (dl + 8))).map fun c => (c, data.drop (8 + dl))

/-- The response parser's inter-entry skip: `data_length % 8`, and if nonzero
`8 -` it (source lines 603–605). -/
def negRespEntrySkipPad (dl : Nat) : Nat := if dl % 8 = 0 then 0 else 8 - dl % 8

/-- Transcribes `SMB2NegotiateResponse._parse_negotiate_context_entry`: same as the
request parser but advances by `8 + data_length + padded_size`. -/
def parseNegEntryResp (data : List Nat) : Option (NegCtx × List Nat) :=
  if data.length < 4 then none
  else
    let dl := byte2 data 2
    (negCtxUnpack (data.take (dl + 8))).map fun c =>
      (c, data.drop (8 + dl + negRespEntrySkipPad dl))

/-- Transcribes `SMB3NegotiateRequest._negotiate_context_list`: parse exactly
`negotiate_context_count` entries in order, appending each. -/
def negChainReq : Nat → List Nat → Option (List NegCtx)
  | 0, _ => some []
  | n + 1, data =>
    match parseNegEntryReq data with
    | none => none
    | some (c, rest) => (negChainReq n rest).map (c :: ·)

/-- Transcribes `SMB2NegotiateResponse._negotiate_context_list`: identical loop with the
response-side entry parser. -/
def negChainResp : Nat → List Nat → Option (List NegCtx)
  | 0, _ => some []
  | n + 1, data =>
    match parseNegEntryResp data with
    | none => none
    | some (c, rest) => (negChainResp n rest).map (c :: ·)

/-- Pack of a `negotiate_context_list` `ListField`: the entries' packs
concatenated in order. -/
def negChainPack (cs : List NegCtx) : List Nat := (cs.map negCtxPack).flatten

/-- The integer fields of a context entry fit their wire sizes. -/
def NegCtx.wf (c : NegCtx) : Prop :=
  c.contextType < 65536 ∧ c.reserved < 4294967296

instance (c : NegCtx) : Decidable c.wf := by unfold NegCtx.wf; infer_instance

theorem negCtxPack_length (c : NegCtx) :
    (negCtxPack c).length =
      8 + c.data.length + negCtxPaddingSize c.data.length := by
  simp [negCtxPack, le16, le32]
  omega

theorem negCtxPack_length_eight (c : NegCtx) (h8 : c.data.length = 8) :
    (negCtxPack c).length = 16 := by
  rw [negCtxPack_length, h8]
  simp [negCtxPaddingSize]

theorem parseNegEntryReq_pack (c : NegCtx) (rest : List Nat) (hwf : c.wf)
    (h8 : c.data.length = 8) :
    parseNegEntryReq (negCtxPack c ++ rest) = some (c, rest) := by
  obtain ⟨t, r, d⟩ := c
  obtain ⟨ht, hr⟩ := hwf
  replace ht : t < 65536 := ht
  replace hr : r < 4294967296 := hr
  simp only at h8
  have hlen : (negCtxPack ⟨t, r, d⟩).length = 16 := negCtxPack_length_eight _ h8
  have hbyte2 : byte2 (negCtxPack ⟨t, r, d⟩ ++ rest) 2 = 8 := by
    simp [negCtxPack, byte2, le16, le32, h8]
  have htake : (negCtxPack ⟨t, r, d⟩ ++ rest).take 16 = negCtxPack ⟨t, r, d⟩ :=
    List.take_left' hlen
  have hdrop : (negCtxPack ⟨t, r, d⟩ ++ rest).drop 16 = rest :=
    List.drop_left' hlen
  have hunpack : negCtxUnpack (negCtxPack ⟨t, r, d⟩) = some ⟨t, r, d⟩ := by
    have hb2 : byte2 (negCtxPack ⟨t, r, d⟩) 2 = 8 := by
      simp [negCtxPack, byte2, le16, le32, h8]
    have hb0 : byte2 (negCtxPack ⟨t, r, d⟩) 0 = t := by
      simp [negCtxPack, byte2, le16, le32]
      omega
    have hb4 : byte4 (negCtxPack ⟨t, r, d⟩) 4 = r := by
      simp [negCtxPack, byte4, le16, le32]
      omega
    have hdata : (negCtxPack ⟨t, r, d⟩).drop 8 = d := by
      simp [negCtxPack, le16, le32, h8, negCtxPaddingSize]
    have hdata2 : d.take 8 = d := by
      rw [← h8]
      exact List.take_length d
    unfold negCtxUnpack
    rw [hb2]
    simp [hlen, negCtxPaddingSize, hb0, hb4, hdata, hdata2]
  unfold parseNegEntryReq
  rw [hbyte2]
  have hnot : ¬((negCtxPack ⟨t, r, d⟩ ++ rest).length < 4) := by
    simp [hlen]
    omega
  rw [if_neg hnot]
  simp only [show (8 : Nat) + 8 = 16 by rfl, htake, hdrop, hunpack]
  simp

theorem parseNegEntryResp_pack (c : NegCtx) (rest : List Nat) (hwf : c.wf)
    (h8 : c.data.length = 8) :
    parseNegEntryResp (negCtxPack c ++ rest) = some (c, rest) := by
  obtain ⟨t, r, d⟩ := c
  obtain ⟨ht, hr⟩ := hwf
  simp only at h8
  have hlen : (negCtxPack ⟨t, r, d⟩).length = 16 := negCtxPack_length_eight _ h8
  have hreq := parseNegEntryReq_pack ⟨t, r, d⟩ rest ⟨ht, hr⟩ h8
  unfold parseNegEntryReq at hreq
  unfold parseNegEntryResp
  have hbyte2 : byte2 (negCtxPack ⟨t, r, d⟩ ++ rest) 2 = 8 := by
    simp [negCtxPack, byte2, le16, le32, h8]
  rw [hbyte2] at hreq ⊢
  simpa [negRespEntrySkipPad] using hreq

theorem negChainPack_cons (c : NegCtx) (cs : List NegCtx) :
    negChainPack (c :: cs) = negCtxPack c ++ negChainPack cs := by
  simp [negChainPack]

/-- C1.
The round-trip law as claimed — `unpack(pack(m)) == m` for every catalog
message and `pack(unpack(b)) == b` for every well-formed buffer, in
particular for negotiate buffers with two or more 8-byte-aligned context
entries — fails on the code: packing the negotiate-context chain of an
`SMB3NegotiateRequest` (equally an `SMB2NegotiateResponse`) holding two
contexts with 4-byte bodies and unpacking it does not return the chain.
Each packed entry carries 4 trailing padding bytes, but both
`_parse_negotiate_context_entry` implementations hand the entry only its
first `8 + data_length` bytes, so the entry's own padding field runs out of
buffer; the request parser moreover advances by `8 + data_length` with no
padding skip, landing the second entry parse inside the first entry's
padding. -/
theorem c1_roundtrip_counterexample :
    negChainReq 2 (negChainPack
        [⟨1, 0, [170, 187, 204, 221]⟩, ⟨2, 0, [1, 2, 3, 4]⟩]) ≠
      some [⟨1, 0, [170, 187, 204, 221]⟩, ⟨2, 0, [1, 2, 3, 4]⟩] ∧
    negChainResp 2 (negChainPack
        [⟨1, 0, [170, 187, 204, 221]⟩, ⟨2, 0, [1, 2, 3, 4]⟩]) ≠
      some [⟨1, 0, [170, 187, 204, 221]⟩, ⟨2, 0, [1, 2, 3, 4]⟩] := by
  constructor <;> decide

/-- C1 (amended).
The negotiate-context chain round-trips — through the request parser and the
response parser alike — exactly on chains all of whose entries carry an
8-byte body (the only body size whose entry needs no trailing padding):
for such chains, unpacking the packed bytes returns the original entry list.
For any entry with nonzero padding the entry slice of `8 + data_length`
bytes omits the padding field and unpacking fails
(`c1_roundtrip_counterexample`). -/
theorem c1_negotiate_chain_roundtrip (cs : List NegCtx)
    (h : ∀ c ∈ cs, c.wf ∧ c.data.length = 8) :
    negChainReq cs.length (negChainPack cs) = some cs ∧
    negChainResp cs.length (negChainPack cs) = some cs := by
  induction cs with
  | nil => constructor <;> rfl
  | cons c cs ih =>
    obtain ⟨hwf, h8⟩ := h c (List.mem_cons_self c cs)
    have hrest := ih fun x hx => h x (List.mem_cons_of_mem c hx)
    rw [negChainPack_cons]
    constructor
    · show negChainReq (cs.length + 1) _ = _
      unfold negChainReq
      rw [parseNegEntryReq_pack c (negChainPack cs) hwf h8]
      simp [hrest.1]
    · show negChainResp (cs.length + 1) _ = _
      unfold negChainResp
      rw [parseNegEntryResp_pack c (negChainPack cs) hwf h8]
      simp [hrest.2]

/-- Witness for C1 (amended): a concrete two-entry chain with 8-byte bodies
round-trips through both parsers. -/
theorem c1_negotiate_chain_roundtrip_witness :
    negChainReq 2 (negChainPack
        [⟨1, 0, [1, 2, 3, 4, 5, 6, 7, 8]⟩, ⟨2, 0, [9, 10, 11, 12, 13, 14, 15, 16]⟩]) =
      some [⟨1, 0, [1, 2, 3, 4, 5, 6, 7, 8]⟩, ⟨2, 0, [9, 10, 11, 12, 13, 14, 15, 16]⟩] ∧
    negChainResp 2 (negChainPack
        [⟨1, 0, [1, 2, 3, 4, 5, 6, 7, 8]⟩, ⟨2, 0, [9, 10, 11, 12, 13, 14, 15, 16]⟩]) =
      some [⟨1, 0, [1, 2, 3, 4, 5, 6, 7, 8]⟩, ⟨2, 0, [9, 10, 11, 12, 13, 14, 15, 16]⟩] := by
  have := c1_negotiate_chain_roundtrip
    [⟨1, 0, [1, 2, 3, 4, 5, 6, 7, 8]⟩, ⟨2, 0, [9, 10, 11, 12, 13, 14, 15, 16]⟩]
    (by decide)
  simpa using this

/-! ## Create contexts (`SMB2CreateContextRequest` and the chain parser of
`SMB2CreateRequest`) -/

/-- A structural decode failure, identifying the field that ran out of buffer
and the byte offset at which it was to be read.  Modelled from the spec:
"structural errors on unpack must surface a decode failure identifying the
field and byte offset". -/
structure DecodeErr where
  fieldName : String
  byteOffset : Nat
  deriving DecidableEq, Repr

/-- A decoded `SMB2CreateContextRequest`.  `name_length` and `data_length`
are the measured lengths of `buffer_name` / `buffer_data` (the source's
default lambdas), and the padding bytes are regenerated, so none of the
three is stored.  `buffer_name` (an `EnumField` of `name_length` bytes) is
kept as its raw bytes. -/
structure CreateCtx where
  next : Nat
  nameOffset : Nat
  reserved : Nat
  dataOffset : Nat
  bufferName : List Nat
  bufferData : List Nat
  deriving DecidableEq, Repr

/-- Transcribes `SMB2CreateContextRequest._padding_size`: `0` when `data_length == 0`,
else `8 - data_length % 8` when the remainder is nonzero, else `0`. -/
def createCtxPaddingSize (dataLength : Nat) : Nat :=
  if dataLength = 0 then 0
  else if dataLength % 8 = 0 then 0 else 8 - dataLength % 8

/-- Pack of `SMB2CreateContextRequest` in declared field order:
`next`(4) · `name_offset`(2) · `name_length`(2) · `reserved`(2) ·
`data_offset`(2) · `data_length`(4) · `buffer_name` · `padding` ·
`buffer_data`. -/
def createCtxPack (c : CreateCtx) : List Nat :=
  le32 c.next ++ le16 c.nameOffset ++ le16 c.bufferName.length ++
    le16 c.reserved ++ le16 c.dataOffset ++ le32 c.bufferData.length ++
    c.bufferName ++ List.replicate (createCtxPaddingSize c.bufferData.length) 0 ++
    c.bufferData

/-- Transcribes `len(create_context)` after unpack: the sum of the entry's resolved field
sizes, `16 + name_length + padding + data_length`. -/
def createCtxLen (c : CreateCtx) : Nat :=
  16 + c.bufferName.length + createCtxPaddingSize c.bufferData.length +
    c.bufferData.length

/-- Unpack of `SMB2CreateContextRequest`: consumes the fields in declared
order, each exactly its resolved size; a shortfall is a structural decode
failure naming the field and the absolute byte offset (`base` is the offset
of the entry within the surrounding buffer). -/
def createCtxUnpack (base : Nat) (b : List Nat) : Except DecodeErr CreateCtx :=
  if b.length < 4 then .error ⟨"next", base⟩
  else if b.length < 6 then .error ⟨"name_offset", base + 4⟩
  else if b.length < 8 then .error ⟨"name_length", base + 6⟩
  else if b.length < 10 then .error ⟨"reserved", base + 8⟩
  else if b.length < 12 then .error ⟨"data_offset", base + 10⟩
  else if b.length < 16 then .error ⟨"data_length", base + 12⟩
  else
    let nl := byte2 b 6
    let dl := byte4 b 12
    if b.length < 16 + nl then .error ⟨"buffer_name", base + 16⟩
    else if b.length < 16 + nl + createCtxPaddingSize dl then
      .error ⟨"padding", base + 16 + nl⟩
    else if b.length < 16 + nl + createCtxPaddingSize dl + dl then
      .error ⟨"buffer_data", base + 16 + nl + createCtxPaddingSize dl⟩
    else
      .ok ⟨byte4 b 0, byte2 b 4, byte2 b 8, byte2 b 10,
        (b.drop 16).take nl, (b.drop (16 + nl + createCtxPaddingSize dl)).take dl⟩

/-- Transcribes `SMB2CreateRequest._buffer_context_list` /
`_parse_create_context_entry`: repeatedly unpack an entry from the remaining
data and advance by `len(create_context)` (the entry's measured length — the
entry's `next` value is used only for the termination test `next == 0`);
the loop appends to no list and returns the initial empty one (transcribed
as-is from the source, where `context_list.append` is never called).  `fuel`
only bounds the recursion; since each iteration consumes at least 16 bytes,
the fuel-exhaustion branch is unreachable from `bufferContextList`'s
`data.length + 1`. -/
def bufferContextListAux : Nat → Nat → List Nat → Except DecodeErr (List CreateCtx)
  | 0, base, _ => .error ⟨"next", base⟩
  | fuel + 1, base, data =>
    match createCtxUnpack base data with
    | .error e => .error e
    | .ok c =>
      if c.next = 0 then .ok []
      else bufferContextListAux fuel (base + createCtxLen c) (data.drop (createCtxLen c))

/-- Unpack of the `buffer_context` `ListField` of `SMB2CreateRequest`. -/
def bufferContextList (data : List Nat) : Except DecodeErr (List CreateCtx) :=
  bufferContextListAux (data.length + 1) 0 data

instance {ε α : Type} [DecidableEq ε] [DecidableEq α] : DecidableEq (Except ε α) := fun
  | .error e, .error f =>
    if h : e = f then .isTrue (h ▸ rfl)
    else .isFalse fun hh => h (by cases hh; rfl)
  | .error _, .ok _ => .isFalse fun hh => by cases hh
  | .ok _, .error _ => .isFalse fun hh => by cases hh
  | .ok a, .ok b =>
    if h : a = b then .isTrue (h ▸ rfl)
    else .isFalse fun hh => h (by cases hh; rfl)

/-- The integer fields of a create-context entry fit their wire sizes. -/
def CreateCtx.wf (c : CreateCtx) : Prop :=
  c.next < 4294967296 ∧ c.nameOffset < 65536 ∧ c.reserved < 65536 ∧
    c.dataOffset < 65536 ∧ c.bufferName.length < 65536 ∧
    c.bufferData.length < 4294967296

instance (c : CreateCtx) : Decidable c.wf := by unfold CreateCtx.wf; infer_instance

theorem createCtxPack_length (c : CreateCtx) :
    (createCtxPack c).length = createCtxLen c := by
  simp [createCtxPack, createCtxLen, le16, le32]
  omega

theorem createCtxUnpack_pack (base : Nat) (c : CreateCtx) (rest : List Nat)
    (hwf : c.wf) :
    createCtxUnpack base (createCtxPack c ++ rest) = .ok c := by
  obtain ⟨nx, no, rv, dofs, nm, dt⟩ := c
  obtain ⟨h1, h2, h3, h4, h5, h6⟩ := hwf
  replace h1 : nx < 4294967296 := h1
  replace h2 : no < 65536 := h2
  replace h3 : rv < 65536 := h3
  replace h4 : dofs < 65536 := h4
  replace h5 : nm.length < 65536 := h5
  replace h6 : dt.length < 4294967296 := h6
  have hXlen : (createCtxPack ⟨nx, no, rv, dofs, nm, dt⟩ ++ rest).length =
      16 + nm.length + createCtxPaddingSize dt.length + dt.length + rest.length := by
    simp [createCtxPack, le16, le32]
    omega
  have hb0 : byte4 (createCtxPack ⟨nx, no, rv, dofs, nm, dt⟩ ++ rest) 0 = nx := by
    simp [createCtxPack, byte4, le16, le32]
    omega
  have hb4 : byte2 (createCtxPack ⟨nx, no, rv, dofs, nm, dt⟩ ++ rest) 4 = no := by
    simp [createCtxPack, byte2, le16, le32]
    omega
  have hb6 : byte2 (createCtxPack ⟨nx, no, rv, dofs, nm, dt⟩ ++ rest) 6 = nm.length := by
    simp [createCtxPack, byte2, le16, le32]
    omega
  have hb8 : byte2 (createCtxPack ⟨nx, no, rv, dofs, nm, dt⟩ ++ rest) 8 = rv := by
    simp [createCtxPack, byte2, le16, le32]
    omega
  have hb10 : byte2 (createCtxPack ⟨nx, no, rv, dofs, nm, dt⟩ ++ rest) 10 = dofs := by
    simp [createCtxPack, byte2, le16, le32]
    omega
  have hb12 : byte4 (createCtxPack ⟨nx, no, rv, dofs, nm, dt⟩ ++ rest) 12 = dt.length := by
    simp [createCtxPack, byte4, le16, le32]
    omega
  have hdrop16 : (createCtxPack ⟨nx, no, rv, dofs, nm, dt⟩ ++ rest).drop 16 =
      nm ++ (List.replicate (createCtxPaddingSize dt.length) 0 ++ (dt ++ rest)) := by
    simp [createCtxPack, le16, le32]
  have hname : ((createCtxPack ⟨nx, no, rv, dofs, nm, dt⟩ ++ rest).drop 16).take nm.length = nm := by
    rw [hdrop16]
    exact List.take_left' rfl
  have hdropData : (createCtxPack ⟨nx, no, rv, dofs, nm, dt⟩ ++ rest).drop
      (16 + nm.length + createCtxPaddingSize dt.length) = dt ++ rest := by
    have hsplit : (createCtxPack ⟨nx, no, rv, dofs, nm, dt⟩ ++ rest).drop
        (16 + nm.length + createCtxPaddingSize dt.length) =
        (((createCtxPack ⟨nx, no, rv, dofs, nm, dt⟩ ++ rest).drop 16).drop
          nm.length).drop (createCtxPaddingSize dt.length) := by
      rw [List.drop_drop, List.drop_drop]
      congr 1
      omega
    rw [hsplit, hdrop16, List.drop_left,
      List.drop_left' (List.length_replicate _ _)]
  have hdata : ((createCtxPack ⟨nx, no, rv, dofs, nm, dt⟩ ++ rest).drop
      (16 + nm.length + createCtxPaddingSize dt.length)).take dt.length = dt := by
    rw [hdropData]
    exact List.take_left' rfl
  unfold createCtxUnpack
  rw [hb6, hb12]
  rw [if_neg (by omega), if_neg (Nat.not_lt.mpr (by omega)), if_neg (by omega),
    if_neg (Nat.not_lt.mpr (by omega)), if_neg (by omega),
    if_neg (Nat.not_lt.mpr (by omega)), if_neg (by omega),
    if_neg (Nat.not_lt.mpr (by omega)), if_neg (by omega)]
  rw [hb0, hb4, hb8, hb10, hname, hdata]

theorem bufferContextListAux_nil (fuel base : Nat) :
    bufferContextListAux fuel base [] = .error ⟨"next", base⟩ := by
  cases fuel with
  | zero => rfl
  | succ n => rfl

/-- C3.
Chain-termination evaluation on a well-formed three-entry chain A→B→C with
`A.next = B.next = 28 ≠ 0` and `C.next = 0` (each entry 28 bytes long, `next`
equal to the distance to the following entry): `_buffer_context_list`
decodes it to the EMPTY list, not to the three entries in wire order —
the loop parses the entries but `context_list.append` is never called, so
the initial `[]` is returned.  The claim (and the spec's round-trip law) is
the evident intent; the dead `field`/`context_list` bindings mark the missing
append as a slip in the code. -/
theorem c3_create_chain_three_entries_decodes_empty :
    bufferContextList
        (createCtxPack ⟨28, 16, 0, 24, [68, 72, 110, 81], [1, 2, 3, 4]⟩ ++
          (createCtxPack ⟨28, 16, 0, 24, [68, 72, 110, 81], [5, 6, 7, 8]⟩ ++
            createCtxPack ⟨0, 16, 0, 24, [68, 72, 110, 81], [9, 10, 11, 12]⟩)) =
      .ok [] ∧
    bufferContextList
        (createCtxPack ⟨28, 16, 0, 24, [68, 72, 110, 81], [1, 2, 3, 4]⟩ ++
          (createCtxPack ⟨28, 16, 0, 24, [68, 72, 110, 81], [5, 6, 7, 8]⟩ ++
            createCtxPack ⟨0, 16, 0, 24, [68, 72, 110, 81], [9, 10, 11, 12]⟩)) ≠
      .ok [⟨28, 16, 0, 24, [68, 72, 110, 81], [1, 2, 3, 4]⟩,
        ⟨28, 16, 0, 24, [68, 72, 110, 81], [5, 6, 7, 8]⟩,
        ⟨0, 16, 0, 24, [68, 72, 110, 81], [9, 10, 11, 12]⟩] := by
  constructor <;> decide

/-- C8.
The claim — any buffer containing an entry whose `next` points outside the
buffer makes unpack surface a structural decode failure — is false on the
code: `_buffer_context_list` never uses `next` for advancement (it advances
by the entry's measured length and uses `next` only for the `next == 0`
termination test).  Concretely, a 56-byte buffer whose first entry declares
`next = 9999` (far outside the buffer) followed by a terminating entry
decodes without any failure. -/
theorem c8_out_of_range_next_counterexample :
    (createCtxPack ⟨9999, 16, 0, 24, [68, 72, 110, 81], [1, 2, 3, 4]⟩ ++
        createCtxPack ⟨0, 16, 0, 24, [68, 72, 110, 81], [9, 10, 11, 12]⟩).length < 9999 ∧
    bufferContextList
        (createCtxPack ⟨9999, 16, 0, 24, [68, 72, 110, 81], [1, 2, 3, 4]⟩ ++
          createCtxPack ⟨0, 16, 0, 24, [68, 72, 110, 81], [9, 10, 11, 12]⟩) =
      .ok [] := by
  constructor <;> decide

/-- C8 (amended).
An out-of-range `next` alone does not trigger a failure, because the parser
advances by the entry's measured length, never by `next`; decoding fails
structurally exactly when a nonzero `next` asks for a further entry and the
advance has exhausted the supplied buffer.  In that case unpack surfaces a
decode failure identifying the field (`next`) and the byte offset (the end
of the last complete entry), never reads past the supplied buffer (the
embedding is a total function of the buffer contents) and terminates. -/
theorem c8_create_chain_exhaustion_failure (c : CreateCtx) (hwf : c.wf)
    (hnz : c.next ≠ 0) (hout : (createCtxPack c).length < c.next) :
    bufferContextList (createCtxPack c) = .error ⟨"next", createCtxLen c⟩ := by
  unfold bufferContextList
  rw [createCtxPack_length]
  show bufferContextListAux (createCtxLen c + 1) 0 (createCtxPack c) = _
  unfold bufferContextListAux
  have hu : createCtxUnpack 0 (createCtxPack c) = .ok c := by
    have := createCtxUnpack_pack 0 c [] hwf
    simpa using this
  rw [hu]
  dsimp only
  rw [if_neg hnz]
  have hdrop : (createCtxPack c).drop (createCtxLen c) = [] := by
    rw [← createCtxPack_length]
    exact List.drop_length _
  rw [hdrop, bufferContextListAux_nil]
  simp

/-- Witness for C8 (amended): a lone 28-byte entry declaring `next = 9999`
yields the structural decode failure at field `next`, byte offset 28. -/
theorem c8_create_chain_exhaustion_failure_witness :
    bufferContextList
        (createCtxPack ⟨9999, 16, 0, 24, [68, 72, 110, 81], [1, 2, 3, 4]⟩) =
      .error ⟨"next", 28⟩ := by
  have := c8_create_chain_exhaustion_failure
    ⟨9999, 16, 0, 24, [68, 72, 110, 81], [1, 2, 3, 4]⟩ (by decide) (by decide)
    (by decide)
  simpa [createCtxLen, createCtxPaddingSize] using this

/-! ## Context-chain alignment (C7) -/

/-- Byte offset, relative to the start of the packed chain, at which entry
`i` of a chain begins: the summed lengths of the preceding entries' packed
bytes (`ListField` packing concatenates the entries with nothing between
them). -/
def chainEntryOffset (packs : List (List Nat)) (i : Nat) : Nat :=
  (((packs.take i).map List.length).sum)

/-- Pack of `SMB2ErrorContextResponse` in declared field order:
`error_data_length`(4, measured) · `error_id`(4) · `error_context_data`. -/
def errCtxPack (errorId : Nat) (data : List Nat) : List Nat :=
  le32 data.length ++ le32 errorId ++ data

/-- Every packed negotiate-context entry occupies a multiple of 8 bytes:
the header is 8 bytes and `_padding_size` extends `data` to a multiple of
8 (over-padding by a full 8 when `data` is empty or already a large
multiple of 8, which still preserves the multiple). -/
theorem negCtxPack_length_mod8 (c : NegCtx) : (negCtxPack c).length % 8 = 0 := by
  rw [negCtxPack_length]
  unfold negCtxPaddingSize
  split <;> omega

theorem chainEntryOffset_mod8 (ls : List (List Nat))
    (h : ∀ l ∈ ls, l.length % 8 = 0) (i : Nat) :
    chainEntryOffset ls i % 8 = 0 := by
  induction ls generalizing i with
  | nil => simp [chainEntryOffset]
  | cons l ls ih =>
    cases i with
    | zero => simp [chainEntryOffset]
    | succ j =>
      have hl := h l (List.mem_cons_self l ls)
      have hj := ih (fun x hx => h x (List.mem_cons_of_mem l hx)) j
      unfold chainEntryOffset at hj ⊢
      simp only [List.take_succ_cons, List.map_cons, List.sum_cons]
      omega

/-- C7.
The alignment invariant as claimed — for every packed negotiate, create, or
error context chain, each entry's offset from the start of the chain is a
multiple of 8 — fails on the code for create and error chains: a packed
two-entry create-context chain whose first entry has a 4-byte name and no
data puts the second entry at offset 20, and a packed two-entry
error-context chain whose first entry has 4 data bytes puts the second at
offset 12 (`SMB2CreateContextRequest` pads before `buffer_data`, sized by
`data_length` alone, and `SMB2ErrorContextResponse` has no padding field at
all, so neither rounds an entry up to an 8-byte boundary). -/
theorem c7_alignment_counterexample :
    chainEntryOffset
        [createCtxPack ⟨20, 16, 0, 0, [68, 72, 110, 81], []⟩,
          createCtxPack ⟨0, 16, 0, 0, [77, 120, 65, 99], []⟩] 1 % 8 ≠ 0 ∧
    chainEntryOffset [errCtxPack 1 [1, 2, 3, 4], errCtxPack 2 [5, 6, 7, 8]] 1 % 8 ≠ 0 := by
  constructor <;> decide

/-- C7 (amended).
The alignment invariant holds for negotiate-context chains: every packed
`SMB2NegotiateContextRequest` entry occupies a multiple of 8 bytes (its own
trailing `padding` field rounds it up), so in a packed chain every entry —
in particular entry i+1 of a chain with at least two entries — begins at an
offset from the start of the chain that is a multiple of 8.  It fails for
create- and error-context chains (`c7_alignment_counterexample`). -/
theorem c7_negotiate_chain_alignment (cs : List NegCtx) (i : Nat) :
    chainEntryOffset (cs.map negCtxPack) i % 8 = 0 := by
  refine chainEntryOffset_mod8 _ ?_ i
  intro l hl
  obtain ⟨c, _, rfl⟩ := List.mem_map.mp hl
  exact negCtxPack_length_mod8 c

/-! ## Create request / create context offset fields (C2) -/

/-- A dynamically typed Python value, as far as the offset lambdas need:
an integer or a byte string. -/
inductive PyVal where
  | int : Nat → PyVal
  | bytes : List Nat → PyVal
  deriving DecidableEq, Repr

/-- Python `+` on such values: ints add, byte strings concatenate, and a
mixed addition raises `TypeError` (`none`). -/
def pyAdd : PyVal → PyVal → Option PyVal
  | .int a, .int b => some (.int (a + b))
  | .bytes a, .bytes b => some (.bytes (a ++ b))
  | _, _ => none

/-- Transcribes `SMB2CreateRequest._padding_size`: 0 with no contexts, else it pads
`name_length` up to the next multiple of 8. -/
def createReqPaddingSize (bufferContextLen nameLength : Nat) : Nat :=
  if bufferContextLen = 0 then 0
  else if nameLength % 8 = 0 then 0 else 8 - nameLength % 8

/-- Transcribes `SMB2CreateRequest._create_contexts_offset`: 0 with no contexts, else
`name_offset.get_value() + padding.get_value()` — the integer `name_offset`
plus the BYTES of the padding field (not its length, and with no
`name_length` term). -/
def createContextsOffsetValue (nameOffset : Nat) (padding : List Nat)
    (bufferContextLen : Nat) : Option PyVal :=
  if bufferContextLen = 0 then some (.int 0)
  else pyAdd (.int nameOffset) (.bytes padding)

/-- Transcribes `SMB2CreateContextRequest._buffer_data_offset`: 0 when `data_length` is
0, else `name_offset.get_value() + len(padding)` (no `name_length` term). -/
def createCtxBufferDataOffsetValue (nameOffset dataLength : Nat) : Nat :=
  if dataLength = 0 then 0 else nameOffset + createCtxPaddingSize dataLength

/-- C2.
Offset self-consistency fails on the code, on both fields the claim names.
For an `SMB2CreateRequest` with a 2-byte name and a non-empty context chain
(padding 6, chain 28 bytes), `_create_contexts_offset` evaluates
`name_offset + padding-bytes` — a dynamic type error (`none`), not the
measured chain offset `name_offset + name_length + padding = 128`.  For an
`SMB2CreateContextRequest` with a 4-byte name and 4 data bytes,
`_buffer_data_offset` yields `16 + 4 = 20`, while in the packed entry the
data actually begins at byte 24 (`16 + name_length 4 + padding 4`): byte 20
starts the zero padding, not the data. -/
theorem c2_offset_fields_diverge :
    createContextsOffsetValue 120 (List.replicate 6 0) 28 = none ∧
    createCtxBufferDataOffsetValue 16 4 = 20 ∧
    ((createCtxPack ⟨0, 16, 0, 20, [68, 72, 110, 81], [1, 2, 3, 4]⟩).drop 24).take 4 =
      [1, 2, 3, 4] ∧
    ((createCtxPack ⟨0, 16, 0, 20, [68, 72, 110, 81], [1, 2, 3, 4]⟩).drop 20).take 4 ≠
      [1, 2, 3, 4] := by
  refine ⟨by decide, by decide, by decide, by decide⟩

/-! ## Negotiate request resolved fields (C5) -/

/-- Transcribes `dialect_count` default of `SMB3NegotiateRequest`:
`len(s['dialects'].get_value())`. -/
def smb3DialectCountValue (dialects : List Nat) : Nat := dialects.length

/-- Transcribes `SMB3NegotiateRequest._padding_size`: `(dialect_count * 2) % 8`, with 0
kept as 0 (the source returns the remainder itself when it is nonzero). -/
def smb3NegPaddingSize (dialectCount : Nat) : Nat :=
  if dialectCount * 2 % 8 = 0 then 0 else dialectCount * 2 % 8

/-- The `padding` field's default bytes: `b"\x00" * _padding_size`. -/
def smb3NegPaddingBytes (dialectCount : Nat) : List Nat :=
  List.replicate (smb3NegPaddingSize dialectCount) 0

/-- Transcribes `SMB3NegotiateRequest._negotiate_context_offset_value`: header (64) +
`structure_size` (default 36) + `len(dialects)` (2 bytes per dialect) +
`_padding_size`. -/
def smb3NegContextOffsetValue (dialectCount : Nat) : Nat :=
  64 + 36 + dialectCount * 2 + smb3NegPaddingSize dialectCount

/-- C5.
The concrete negotiate scenario: with dialect list
`[0x0202, 0x0210, 0x0311]` (and any client GUID — the GUID is a fixed
16-byte field the resolved values do not depend on), `dialect_count`
resolves to 3, the padding field is exactly `(3*2) % 8 = 6` zero bytes, and
the negotiate-context offset resolves to `64 + 36 + 6 + 6 = 112`. -/
theorem c5_concrete_negotiate_scenario :
    smb3DialectCountValue [0x0202, 0x0210, 0x0311] = 3 ∧
    smb3NegPaddingSize 3 = 3 * 2 % 8 ∧
    smb3NegPaddingBytes 3 = List.replicate 6 0 ∧
    smb3NegContextOffsetValue 3 = 64 + 36 + 6 + 6 ∧
    smb3NegContextOffsetValue 3 = 112 := by
  refine ⟨by decide, by decide, by decide, by decide, by decide⟩

/-! ## Negotiate response gating (C4) -/

/-- Modelled from the spec: the wire code of the top dialect 3.1.1.  The
`Dialects` enum lives in a constants module outside the given sources; the
spec's concrete scenario lists `0x0311` as the top dialect. -/
def smb311 : Nat := 0x0311

/-- Transcribes `SMB2NegotiateResponse._negotiate_context_count_value`: the length of
`negotiate_context_list` when `dialect_revision` is 3.1.1, else `None` —
which packs as zero (the source's header comment: "None is \x00 * size"). -/
def negRespContextCountValue (dialectRevision : Nat) (ctxList : List NegCtx) : Nat :=
  if dialectRevision = smb311 then ctxList.length else 0

/-- Transcribes `SMB2NegotiateResponse._padding_size`: 0 when there are no contexts,
else it pads `security_buffer_length` up to the next multiple of 8. -/
def negRespPaddingSize (contextCount securityBufferLength : Nat) : Nat :=
  if contextCount = 0 then 0
  else if securityBufferLength % 8 = 0 then 0 else 8 - securityBufferLength % 8

/-- Transcribes `SMB2NegotiateResponse._negotiate_context_offset_value`:
`security_buffer_offset + security_buffer_length + _padding_size` when
`dialect_revision` is 3.1.1, else `None` (packs as zero). -/
def negRespContextOffsetValue (dialectRevision : Nat) (ctxList : List NegCtx)
    (securityBufferOffset securityBufferLength : Nat) : Nat :=
  if dialectRevision = smb311 then
    securityBufferOffset + securityBufferLength +
      negRespPaddingSize (negRespContextCountValue dialectRevision ctxList)
        securityBufferLength
  else 0

/-- C4.
Negotiate response gating, with the context count/offset fields left unset
so their defaults resolve: when `dialect_revision` is not the top dialect
3.1.1 both `negotiate_context_count` and `negotiate_context_offset` pack as
exactly 0; when it is 3.1.1, the count equals the length of
`negotiate_context_list` and the offset equals `security_buffer_offset +
security_buffer_length +` the padding size. -/
theorem c4_negotiate_response_gating (dialectRevision : Nat)
    (ctxList : List NegCtx) (sbo sbl : Nat) :
    (dialectRevision ≠ smb311 →
      negRespContextCountValue dialectRevision ctxList = 0 ∧
      negRespContextOffsetValue dialectRevision ctxList sbo sbl = 0) ∧
    (dialectRevision = smb311 →
      negRespContextCountValue dialectRevision ctxList = ctxList.length ∧
      negRespContextOffsetValue dialectRevision ctxList sbo sbl =
        sbo + sbl + negRespPaddingSize ctxList.length sbl) := by
  constructor
  · intro h
    simp [negRespContextCountValue, negRespContextOffsetValue, h]
  · intro h
    subst h
    simp [negRespContextCountValue, negRespContextOffsetValue]

/-- Witness for C4: both gates at concrete inputs — dialect `0x0202` (count
and offset pack as 0) and dialect `0x0311` with one context and a 10-byte
security buffer (count 1, offset `128 + 10 + 6 = 144`). -/
theorem c4_negotiate_response_gating_witness :
    (negRespContextCountValue 0x0202 [⟨1, 0, []⟩] = 0 ∧
      negRespContextOffsetValue 0x0202 [⟨1, 0, []⟩] 128 10 = 0) ∧
    (negRespContextCountValue 0x0311 [⟨1, 0, []⟩] = 1 ∧
      negRespContextOffsetValue 0x0311 [⟨1, 0, []⟩] 128 10 = 144) := by
  constructor
  · exact (c4_negotiate_response_gating 0x0202 [⟨1, 0, []⟩] 128 10).1 (by decide)
  · have := (c4_negotiate_response_gating 0x0311 [⟨1, 0, []⟩] 128 10).2 rfl
    simpa [negRespPaddingSize] using this

/-! ## Error response (C6) -/

/-- A decoded `SMB2ErrorContextResponse` (length, id, opaque data), were the
parser to produce any: `error_data_length` is the measured data length. -/
structure ErrCtx where
  errorId : Nat
  errorContextData : List Nat
  deriving DecidableEq, Repr

/-- Transcribes `SMB2ErrorResponse._error_data_value`: the source's parser for the raw
`error_data` bytes.  Its body is `return []` under a "TODO: add code to
parse data into a list" comment — it never populates the list, whatever the
bytes say. -/
def errorDataValue (data : List Nat) : List ErrCtx := []

/-- A decoded `SMB2ErrorResponse`. -/
structure SMB2ErrorResponseRec where
  structureSize : Nat
  errorContextCount : Nat
  reserved : Nat
  byteCount : Nat
  errorData : List ErrCtx
  deriving DecidableEq, Repr

/-- Unpack of `SMB2ErrorResponse` in declared field order:
`structure_size`(2), `error_context_count`(1), `reserved`(1),
`byte_count`(4), then `error_data` — a `ListField` of `byte_count` bytes
handed to `_error_data_value`. -/
def smb2ErrorResponseUnpack (b : List Nat) : Option SMB2ErrorResponseRec :=
  if b.length < 8 then none
  else
    let byteCount := byte4 b 4
    if b.length < 8 + byteCount then none
    else
      some ⟨byte2 b 0, b.getD 2 0, b.getD 3 0, byteCount,
        errorDataValue ((b.drop 8).take byteCount)⟩

/-- C6.
Error-context decoding evaluated at a failing input: a well-formed error
response declaring `error_context_count = 1` and `byte_count = 8`, whose
data region holds one error-context entry (4-byte length 0, error id 7),
unpacks to an `error_data` list of length 0, not 1 — `_error_data_value`
is a stub returning `[]` under a TODO comment, contradicting the decoded
count beside it.  (The zero-context half of the claim does hold: with count
0 and `byte_count` 0 the list is empty whatever the reserved byte holds.) -/
theorem c6_error_context_stub :
    smb2ErrorResponseUnpack
        ([9, 0, 1, 0, 8, 0, 0, 0] ++ [0, 0, 0, 0, 7, 0, 0, 0]) =
      some ⟨9, 1, 0, 8, []⟩ ∧
    (errorDataValue [0, 0, 0, 0, 7, 0, 0, 0]).length ≠ 1 := by
  refine ⟨by decide, by decide⟩

/-! ## Transport length prefix (C9) -/

/-- A `DirectTCPPacket` as handed to `pack`: a payload, and the
`stream_protocol_length` field either caller-set (`some`) or left unset
(`none`).  Modelled from the spec: a field packs the explicitly set value
when one was set and otherwise evaluates its default function — here
`lambda s: len(s['smb2_message'])`. -/
structure DirectTCPPacket where
  streamProtocolLength : Option Nat
  smb2Message : List Nat
  deriving DecidableEq, Repr

/-- The value the `stream_protocol_length` field resolves to at pack time. -/
def directTCPStreamProtocolLength (p : DirectTCPPacket) : Nat :=
  p.streamProtocolLength.getD p.smb2Message.length

/-- Pack of `DirectTCPPacket`: the 4-byte big-endian length field followed
by the `smb2_message` bytes. -/
def directTCPPacketPack (p : DirectTCPPacket) : List Nat :=
  be32 (directTCPStreamProtocolLength p) ++ p.smb2Message

/-- C9.
"The prefix is always recomputed from the payload and never taken from a
caller-supplied value" fails: a packet whose caller set
`stream_protocol_length` to 7 over a 3-byte payload packs a prefix encoding
7, not 3 — the default lambda only fires when the field was left unset. -/
theorem c9_caller_supplied_length_counterexample :
    directTCPPacketPack ⟨some 7, [1, 2, 3]⟩ = [0, 0, 0, 7, 1, 2, 3] ∧
    beVal4 (directTCPPacketPack ⟨some 7, [1, 2, 3]⟩) = 7 ∧
    ([1, 2, 3] : List Nat).length = 3 := by
  refine ⟨by decide, by decide, by decide⟩

/-- C9 (amended).
When `stream_protocol_length` is left unset — as an encoding caller that
only supplies the payload leaves it — packing emits a 4-byte big-endian
prefix recomputed as the byte length of `smb2_message`; a caller-set value
takes precedence over the recomputation
(`c9_caller_supplied_length_counterexample`). -/
theorem c9_unset_length_recomputed (msg : List Nat)
    (h : msg.length < 4294967296) :
    directTCPPacketPack ⟨none, msg⟩ = be32 msg.length ++ msg ∧
    beVal4 (directTCPPacketPack ⟨none, msg⟩) = msg.length := by
  constructor
  · rfl
  · show beVal4 (be32 msg.length ++ msg) = msg.length
    simp [beVal4, be32]
    omega

/-- Witness for C9 (amended): a concrete 3-byte payload with the length
field unset packs as `00 00 00 03` followed by the payload. -/
theorem c9_unset_length_recomputed_witness :
    directTCPPacketPack ⟨none, [1, 2, 3]⟩ = be32 3 ++ [1, 2, 3] ∧
    beVal4 (directTCPPacketPack ⟨none, [1, 2, 3]⟩) = 3 := by
  have := c9_unset_length_recomputed [1, 2, 3] (by decide)
  simpa using this

/-! ## IOCTL request defaults (C10) -/

/-- Transcribes `SMB2IOCTLRequest._buffer_offset_value`: `64 + structure_size - 1` when
the buffer is non-empty, else 0. -/
def ioctlBufferOffsetValue (structureSize bufferLen : Nat) : Nat :=
  if 0 < bufferLen then 64 + structureSize - 1 else 0

/-- Transcribes `input_offset` default: `_buffer_offset_value` with the default
`structure_size` 57. -/
def ioctlInputOffsetValue (buffer : List Nat) : Nat :=
  ioctlBufferOffsetValue 57 buffer.length

/-- Transcribes `output_offset` default: the same `_buffer_offset_value`. -/
def ioctlOutputOffsetValue (buffer : List Nat) : Nat :=
  ioctlBufferOffsetValue 57 buffer.length

/-- Transcribes `input_count` default: `len(s['buffer'])`. -/
def ioctlInputCountValue (buffer : List Nat) : Nat := buffer.length

/-- Transcribes `output_count` default: the literal 0. -/
def ioctlOutputCountValue : Nat := 0

/-- C10.
For an `SMB2IOCTLRequest` packed without explicitly setting them,
`input_offset` and `output_offset` resolve to the same value — `64 +
structure_size - 1 = 120` when the buffer is non-empty and 0 when it is
empty — while `output_count` defaults to 0 and `input_count` to the
buffer's byte length. -/
theorem c10_ioctl_defaults (buffer : List Nat) :
    ioctlInputOffsetValue buffer = ioctlOutputOffsetValue buffer ∧
    (buffer ≠ [] → ioctlInputOffsetValue buffer = 120) ∧
    (buffer = [] → ioctlInputOffsetValue buffer = 0) ∧
    ioctlOutputCountValue = 0 ∧
    ioctlInputCountValue buffer = buffer.length := by
  refine ⟨rfl, ?_, ?_, rfl, rfl⟩
  · intro h
    have : 0 < buffer.length := List.length_pos.mpr h
    simp [ioctlInputOffsetValue, ioctlBufferOffsetValue, this]
  · intro h
    subst h
    rfl

/-- Witness for C10: the defaults at a one-byte buffer and at the empty
buffer. -/
theorem c10_ioctl_defaults_witness :
    ioctlInputOffsetValue [5] = 120 ∧ ioctlInputOffsetValue [] = 0 ∧
    ioctlOutputOffsetValue [5] = 120 ∧ ioctlInputCountValue [5] = 1 := by
  have h1 := c10_ioctl_defaults [5]
  have h2 := c10_ioctl_defaults []
  exact ⟨h1.2.1 (by decide), h2.2.2.1 rfl, h1.1 ▸ h1.2.1 (by decide), h1.2.2.2.2⟩

end Smb
